import Mathlib

/-!
# ExtractLink (contrib/unrar/ulinks.cpp)

A shallow embedding of `ExtractLink`, the routine that restores one archive
entry representing a symbolic link.  The function body is embedded statement by
statement.  Everything it calls lives outside `ulinks.cpp`; those collaborators
are either fields of an environment record (so every theorem holds for each of
their possible behaviours) or small models written from the specification.

Memory is checked: the automatic array `FileName` is a list of `NM` bytes and
every access outside it makes the embedding return `none`.  Observable effects
(stream reads, filesystem calls, log lines, error-register updates) are
recorded, in program order, in `State.events`.
-/

set_option maxRecDepth 100000

namespace Unrar

/-- One `char` / `unsigned char` cell. -/
abbrev Byte := Fin 256

/-- Message identifiers handed to `St(...)` by `ExtractLink`. -/
inductive MsgId where
  | MSymLinkExists
  | MErrCreateLnk
  deriving DecidableEq, Repr

/-- Calls that leave `ExtractLink`, in the order they are made. -/
inductive Event where
  | UnpRead (Count : Nat)
  | CreatePath (Path : String) (PathW : Option String) (SkipLastName : Bool)
  | symlink (Target : List Byte) (LinkPath : String)
  | Log (ArcName : String) (Msg : MsgId) (Arg : String)
  | SetErrorCode (Code : Nat)
  deriving DecidableEq, Repr

/-- The two fields of `Arc.NewLhd` that `ExtractLink` reads. -/
structure FileHeader where
  FileAttr : Nat
  PackSize : Nat
  deriving DecidableEq, Repr

/-- The part of `Archive` that `ExtractLink` reads. -/
structure Archive where
  FileName : String
  NewLhd : FileHeader
  deriving DecidableEq, Repr

/-- Mutable surroundings of a call: the bytes the data cursor (the parameter
`DataIO`) has not yet delivered, the exit code held by `ErrHandler`, and the
calls made so far. -/
structure State where
  UnpStream : List Byte
  ExitCode : Nat
  events : List Event
  deriving DecidableEq, Repr

/-- Everything `ExtractLink` depends on that is declared outside `ulinks.cpp`:
the two preprocessor symbols guarding the body, the constants `NM`, `WARNING`
and `EEXIST`, the classifier `IsLink`, the checksum primitive `CRC` (applied to
a seed and the bytes it reads), the behaviour of the `symlink` system call
(return value and the value of `errno` afterwards), and the indeterminate
contents of the stack cells that `FileName` occupies on entry. -/
structure Env where
  SAVE_LINKS : Bool
  _UNIX : Bool
  NM : Nat
  WARNING : Nat
  EEXIST : Nat
  IsLink : Nat → Bool
  CRC : Nat → List Byte → Nat
  symlink : List Byte → String → Int × Nat
  stack : Nat → Byte

/-- What a call hands back: the `int` result, the value of the reference
parameter `LinkCRC` afterwards, and the surroundings afterwards. -/
structure Result where
  ret : Int
  LinkCRC : Nat
  st : State
  deriving DecidableEq, Repr

/-- Modelled from the spec: the `Min` macro of the missing header, `n = min(declared size, capacity - 1)`. -/
def Min (x y : Nat) : Nat := if x < y then x else y

/-- Conversion of an unsigned value to the 32-bit `int` that `DataSize` is. -/
def toInt (x : Nat) : Int := (((x + 2147483648) % 4294967296 : Nat) : Int) - 2147483648

/-- Conversion of an `int` to the 32-bit unsigned count taken by `UnpRead` and `CRC`. -/
def toUInt (i : Int) : Nat := (i % 4294967296).toNat

/-- Outcome of the data cursor's read: surroundings and buffer afterwards, and
the number of bytes delivered. -/
structure ReadResult where
  st : State
  buf : List Byte
  bytesRead : Nat

/-- Modelled from the spec: the data cursor `read(buffer, maxBytes) -> bytesRead`
(`ComprDataIO::UnpRead`, not part of `ulinks.cpp`).  It is sequential, delivers
at most `Count` bytes into the front of the buffer, fewer when the stream ends
first, and reports how many it delivered.  Asking for more than the buffer holds
is a memory fault. -/
def UnpRead (s : State) (Addr : List Byte) (Count : Nat) : Option ReadResult :=
  if Count ≤ Addr.length then
    let got := s.UnpStream.take Count
    some { st := { s with UnpStream := s.UnpStream.drop Count,
                          events := s.events ++ [Event.UnpRead Count] },
           buf := got ++ Addr.drop got.length,
           bytesRead := got.length }
  else none

/-- The assignment `buf[i] = v` with `i` an `int`; a fault outside the array. -/
def store (buf : List Byte) (i : Int) (v : Byte) : Option (List Byte) :=
  if 0 ≤ i ∧ i < (buf.length : Int) then some (buf.set i.toNat v) else none

/-- Reading the array as a NUL-terminated string, as `symlink` does with its
first argument; a fault when no terminator lies inside the array. -/
def cstr (buf : List Byte) : Option (List Byte) :=
  if (0 : Byte) ∈ buf then some (buf.takeWhile (fun b => b ≠ 0)) else none

/-- The bytes `CRC(seed, Addr, Size)` visits; a fault when `Size` exceeds the array. -/
def readBytes (Addr : List Byte) (Size : Nat) : Option (List Byte) :=
  if Size ≤ Addr.length then some (Addr.take Size) else none

/-- Modelled from the spec: the path utility `ensureParentDirectories(path)`
(`CreatePath`, not part of `ulinks.cpp`); its result is ignored by the caller,
so only the call is recorded. -/
def CreatePath (s : State) (Path : String) (PathW : Option String) (SkipLastName : Bool) :
    State :=
  { s with events := s.events ++ [Event.CreatePath Path PathW SkipLastName] }

/-- Modelled from the spec: the logging sink `log(archiveName, messageTemplate, detail)`,
fire-and-forget. -/
def Log (s : State) (ArcName : String) (Msg : MsgId) (Arg : String) : State :=
  { s with events := s.events ++ [Event.Log ArcName Msg Arg] }

/-- Modelled from the spec: the global error register `raiseAtLeast(severityLevel)`
(`ErrorHandler::SetErrorCode`, not part of `ulinks.cpp`): it only ratchets the
severity upward. -/
def SetErrorCode (s : State) (Code : Nat) : State :=
  { s with ExitCode := max s.ExitCode Code,
           events := s.events ++ [Event.SetErrorCode Code] }

/-- The call `symlink(FileName, DestName)`: records the call and yields what the
system call returns together with `errno` afterwards. -/
def symlinkCall (E : Env) (s : State) (Target : List Byte) (LinkPath : String) :
    (Int × Nat) × State :=
  (E.symlink Target LinkPath,
   { s with events := s.events ++ [Event.symlink Target LinkPath] })

/-- Source line 11: `int DataSize=Min(Arc.NewLhd.PackSize,sizeof(FileName)-1);`
with `sizeof(FileName) = NM`. -/
def DataSize (E : Env) (Arc : Archive) : Int := toInt (Min Arc.NewLhd.PackSize (E.NM - 1))

/-- The branch `if (Create) { ... }` of `ExtractLink` (source lines 14-25). -/
def createBranch (E : Env) (s : State) (FileName : List Byte) (Arc : Archive)
    (DestName : String) : Option State := do
  let s1 := CreatePath s DestName none true
  let Target ← cstr FileName
  let r := symlinkCall E s1 Target DestName
  if r.1.1 = -1 then
    if r.1.2 = E.EEXIST then
      pure (Log r.2 Arc.FileName MsgId.MSymLinkExists DestName)
    else
      pure (SetErrorCode (Log r.2 Arc.FileName MsgId.MErrCreateLnk DestName) E.WARNING)
  else
    pure r.2

/-- Embedding of `int ExtractLink(ComprDataIO &DataIO, Archive &Arc, char *DestName,
unsigned int &LinkCRC, bool Create)`.  `none` stands for a memory fault. -/
def ExtractLink (E : Env) (s : State) (Arc : Archive) (DestName : String)
    (LinkCRC : Nat) (Create : Bool) : Option Result :=
  if E.SAVE_LINKS && E._UNIX then
    let FileName : List Byte := (List.range E.NM).map E.stack
    if E.IsLink Arc.NewLhd.FileAttr then do
      let DataSize : Int := DataSize E Arc
      let r ← UnpRead s FileName (toUInt DataSize)
      let FileName ← store r.buf DataSize 0
      let s1 ← if Create then createBranch E r.st FileName Arc DestName else pure r.st
      let bytes ← readBytes FileName (toUInt DataSize)
      pure { ret := 1, LinkCRC := E.CRC 0xffffffff bytes, st := s1 }
    else
      pure { ret := 0, LinkCRC := LinkCRC, st := s }
  else
    pure { ret := 0, LinkCRC := LinkCRC, st := s }

/-- One step of the bit-serial CRC-32 register (reflected polynomial `0xEDB88320`). -/
def crcBit (c : Nat) : Nat := if c % 2 = 1 then (c / 2) ^^^ 0xEDB88320 else c / 2

/-- Feeding one byte to the CRC-32 register. -/
def crcByte (c : Nat) (b : Byte) : Nat :=
  crcBit (crcBit (crcBit (crcBit (crcBit (crcBit (crcBit (crcBit (c ^^^ b.val))))))))

/-- Modelled from the spec: the checksum primitive, standard CRC-32
`crc(seed, bytes, length) -> uint32`, a pure function (`CRC`, not part of
`ulinks.cpp`).  The caller supplies the seed; the bytes are folded into the
register one at a time. -/
def crc32 (StartCRC : Nat) (Data : List Byte) : Nat := Data.foldl crcByte StartCRC

/-- A concrete environment for worked examples: link support compiled in,
`NM = 1024`, Unix file-type bits in the attributes, the CRC-32 above, and the
given `symlink` behaviour and stack contents. -/
def sampleEnv (symlink : List Byte → String → Int × Nat) (stack : Nat → Byte) : Env :=
  { SAVE_LINKS := true, _UNIX := true, NM := 1024, WARNING := 1, EEXIST := 17,
    IsLink := fun Attr => Attr / 4096 % 16 == 10,
    CRC := crc32, symlink := symlink, stack := stack }

/-- The bytes of the text `../../etc/passwd`. -/
def traversalPayload : List Byte :=
  [46, 46, 47, 46, 46, 47, 101, 116, 99, 47, 112, 97, 115, 115, 119, 100]

/-- Builds in which the body of `ExtractLink` is compiled in (`SAVE_LINKS` and
`_UNIX` defined) and `FileName` is a well-formed array: at least one cell, and a
size that fits the `int` variable `DataSize`. -/
def LinkBuild (E : Env) : Prop :=
  E.SAVE_LINKS = true ∧ E._UNIX = true ∧ 0 < E.NM ∧ E.NM ≤ 2147483648

instance (E : Env) : Decidable (LinkBuild E) := by
  unfold LinkBuild
  infer_instance

/-- The contents of `FileName` right after the read of `n` bytes: the bytes the
cursor delivered, followed by whatever the stack held behind them. -/
def bufferAfterRead (E : Env) (s : State) (n : Nat) : List Byte :=
  s.UnpStream.take n ++ ((List.range E.NM).map E.stack).drop (s.UnpStream.take n).length

/-- The surroundings right after the read of `n` bytes. -/
def stateAfterRead (s : State) (n : Nat) : State :=
  { s with UnpStream := s.UnpStream.drop n, events := s.events ++ [Event.UnpRead n] }

/-- The surroundings after the `if (Create)` branch was entered in surroundings
`s` with the link text `Target`: the two filesystem calls, then the log line and
the error-register update that the outcome of `symlink` selects. -/
def stateAfterCreate (E : Env) (s : State) (Target : List Byte) (Arc : Archive)
    (DestName : String) : State :=
  let ev := s.events ++ [Event.CreatePath DestName none true, Event.symlink Target DestName]
  if (E.symlink Target DestName).1 = -1 then
    if (E.symlink Target DestName).2 = E.EEXIST then
      { s with events := ev ++ [Event.Log Arc.FileName MsgId.MSymLinkExists DestName] }
    else
      { s with ExitCode := max s.ExitCode E.WARNING,
               events := ev ++ [Event.Log Arc.FileName MsgId.MErrCreateLnk DestName,
                                Event.SetErrorCode E.WARNING] }
  else
    { s with events := ev }

/-- The calls made during one invocation that started in surroundings `s` and
produced the result `r`. -/
def newEvents (s : State) (r : Result) : List Event := r.st.events.drop s.events.length

/-- The text `symlink` receives as its first argument: the checksummed cells of
`FileName`, read as a NUL-terminated string. -/
def linkTarget (E : Env) (s : State) (Arc : Archive) : List Byte :=
  ((bufferAfterRead E s (min Arc.NewLhd.PackSize (E.NM - 1))).take
    (min Arc.NewLhd.PackSize (E.NM - 1))).takeWhile (fun b => b ≠ 0)

/-- Calls that touch the filesystem. -/
def Event.isFsCall : Event → Bool
  | Event.CreatePath _ _ _ => true
  | Event.symlink _ _ => true
  | _ => false

/-- Calls to the logging sink. -/
def Event.isLog : Event → Bool
  | Event.Log _ _ _ => true
  | _ => false

/-- Calls to `ErrHandler.SetErrorCode`. -/
def Event.isSetErrorCode : Event → Bool
  | Event.SetErrorCode _ => true
  | _ => false

/-- The calls that follow `symlink(Target, DestName)`, selected by its outcome. -/
def outcomeEvents (E : Env) (Target : List Byte) (Arc : Archive) (DestName : String) :
    List Event :=
  if (E.symlink Target DestName).1 = -1 then
    if (E.symlink Target DestName).2 = E.EEXIST then
      [Event.Log Arc.FileName MsgId.MSymLinkExists DestName]
    else
      [Event.Log Arc.FileName MsgId.MErrCreateLnk DestName, Event.SetErrorCode E.WARNING]
  else []

/-- Surroundings of the worked examples: the stream holds the traversal text
followed by three bytes of the next entry. -/
def sampleState : State :=
  { UnpStream := traversalPayload ++ [1, 2, 3], ExitCode := 0, events := [] }

/-- Surroundings of a truncated archive: the stream ends after two bytes. -/
def shortState : State :=
  { UnpStream := [97, 98], ExitCode := 0, events := [] }

/-- Archive of the worked examples: a symbolic-link entry (`FileAttr = 0xA1FF`)
declaring `PackSize` payload bytes. -/
def sampleArc (PackSize : Nat) : Archive :=
  { FileName := "a.rar", NewLhd := { FileAttr := 0xA1FF, PackSize := PackSize } }

/-! ## Auxiliary facts -/

theorem Min_eq_min (x y : Nat) : Min x y = min x y := by
  unfold Min
  split <;> omega

theorem toInt_of_lt (x : Nat) (h : x < 2147483648) : toInt x = (x : Int) := by
  unfold toInt
  omega

theorem toUInt_natCast (x : Nat) (h : x < 2147483648) : toUInt (x : Int) = x := by
  unfold toUInt
  omega

theorem DataSize_eq (E : Env) (hb : LinkBuild E) (Arc : Archive) :
    DataSize E Arc = ((min Arc.NewLhd.PackSize (E.NM - 1) : Nat) : Int) := by
  obtain ⟨_, _, h0, h1⟩ := hb
  unfold DataSize
  rw [Min_eq_min]
  exact toInt_of_lt _ (by omega)

theorem length_bufferAfterRead (E : Env) (s : State) (n : Nat) (hn : n ≤ E.NM) :
    (bufferAfterRead E s n).length = E.NM := by
  simp [bufferAfterRead]
  omega

theorem takeWhile_set_zero (buf : List Byte) (n : Nat) (hn : n < buf.length) :
    (buf.set n 0).takeWhile (fun b => b ≠ 0) = (buf.take n).takeWhile (fun b => b ≠ 0) := by
  induction buf generalizing n with
  | nil => simp at hn
  | cons a t ih =>
    cases n with
    | zero => simp
    | succ m =>
      simp only [List.set_cons_succ, List.take_succ_cons, List.takeWhile_cons]
      rw [ih m (by simpa using hn)]

theorem zero_mem_set_zero (buf : List Byte) (n : Nat) (hn : n < buf.length) :
    (0 : Byte) ∈ buf.set n 0 := by
  induction buf generalizing n with
  | nil => simp at hn
  | cons a t ih =>
    cases n with
    | zero => simp
    | succ m =>
      simp only [List.set_cons_succ, List.mem_cons]
      exact Or.inr (ih m (by simpa using hn))

theorem take_set_self (buf : List Byte) (n : Nat) (v : Byte) :
    (buf.set n v).take n = buf.take n := by
  induction buf generalizing n with
  | nil => simp
  | cons a t ih =>
    cases n with
    | zero => simp
    | succ m => simp [ih m]

theorem createBranch_eq (E : Env) (s : State) (buf : List Byte) (n : Nat)
    (hn : n < buf.length) (Arc : Archive) (DestName : String) :
    createBranch E s (buf.set n 0) Arc DestName
      = some (stateAfterCreate E s ((buf.take n).takeWhile (fun b => b ≠ 0)) Arc DestName) := by
  have hz := zero_mem_set_zero buf n hn
  have ht := takeWhile_set_zero buf n hn
  simp only [createBranch, cstr, hz, if_true, ht, symlinkCall, CreatePath, Log, SetErrorCode,
    stateAfterCreate, Option.pure_def, Option.bind_eq_bind, Option.some_bind]
  split
  · split <;> simp
  · simp

/-- Closed form of a call on a link entry in a link-supporting build. -/
theorem ExtractLink_link_eq (E : Env) (hb : LinkBuild E) (s : State) (Arc : Archive)
    (DestName : String) (LinkCRC : Nat) (Create : Bool)
    (hl : E.IsLink Arc.NewLhd.FileAttr = true) :
    ExtractLink E s Arc DestName LinkCRC Create
      = some { ret := 1,
               LinkCRC := E.CRC 0xffffffff
                 ((bufferAfterRead E s (min Arc.NewLhd.PackSize (E.NM - 1))).take
                   (min Arc.NewLhd.PackSize (E.NM - 1))),
               st := if Create then
                       stateAfterCreate E (stateAfterRead s (min Arc.NewLhd.PackSize (E.NM - 1)))
                         (((bufferAfterRead E s (min Arc.NewLhd.PackSize (E.NM - 1))).take
                            (min Arc.NewLhd.PackSize (E.NM - 1))).takeWhile (fun b => b ≠ 0))
                         Arc DestName
                     else stateAfterRead s (min Arc.NewLhd.PackSize (E.NM - 1)) } := by
  have hD := DataSize_eq E hb Arc
  obtain ⟨h1, h2, h3, h4⟩ := hb
  generalize hn : min Arc.NewLhd.PackSize (E.NM - 1) = n at hD ⊢
  have hnlt : n < E.NM := by omega
  have hU : toUInt (n : Int) = n := toUInt_natCast n (by omega)
  have hlen : (bufferAfterRead E s n).length = E.NM := length_bufferAfterRead E s n (by omega)
  have hcb := createBranch_eq E (stateAfterRead s n) (bufferAfterRead E s n) n (by omega) Arc DestName
  have hread : UnpRead s ((List.range E.NM).map E.stack) n
      = some { st := stateAfterRead s n, buf := bufferAfterRead E s n,
               bytesRead := (s.UnpStream.take n).length } := by
    simp [UnpRead, stateAfterRead, bufferAfterRead]
    omega
  have hstore : store (bufferAfterRead E s n) (n : Int) 0
      = some ((bufferAfterRead E s n).set n 0) := by
    simp [store, hlen]
    omega
  have hrb : readBytes ((bufferAfterRead E s n).set n 0) n
      = some ((bufferAfterRead E s n).take n) := by
    simp [readBytes, hlen, take_set_self]
    omega
  unfold ExtractLink
  simp only [h1, h2, hl, Bool.and_self, if_true, hD, hU, hread, hstore, hrb,
    Option.pure_def, Option.bind_eq_bind, Option.some_bind]
  cases Create
  · simp [hrb]
  · simp [hcb, hrb]

/-- Closed form of a call on an entry that is not classified as a link, or in a
build without link support. -/
theorem ExtractLink_skip_eq (E : Env) (s : State) (Arc : Archive) (DestName : String)
    (LinkCRC : Nat) (Create : Bool)
    (h : (E.SAVE_LINKS && E._UNIX && E.IsLink Arc.NewLhd.FileAttr) = false) :
    ExtractLink E s Arc DestName LinkCRC Create
      = some { ret := 0, LinkCRC := LinkCRC, st := s } := by
  unfold ExtractLink
  by_cases hb : (E.SAVE_LINKS && E._UNIX) = true
  · have hl : E.IsLink Arc.NewLhd.FileAttr = false := by
      rw [hb] at h
      simpa using h
    simp [hb, hl]
  · simp [hb]

theorem bufferAfterRead_take (E : Env) (s : State) (n : Nat) (hs : n ≤ s.UnpStream.length) :
    (bufferAfterRead E s n).take n = s.UnpStream.take n := by
  unfold bufferAfterRead
  rw [List.take_append_of_le_length (by simp [hs])]
  simp

theorem newEvents_append (s : State) (r : Result) (l : List Event)
    (h : r.st.events = s.events ++ l) : newEvents s r = l := by
  simp [newEvents, h]

theorem stateAfterCreate_events (E : Env) (s : State) (Target : List Byte) (Arc : Archive)
    (DestName : String) :
    (stateAfterCreate E s Target Arc DestName).events
      = s.events ++ ([Event.CreatePath DestName none true, Event.symlink Target DestName]
          ++ outcomeEvents E Target Arc DestName) := by
  unfold stateAfterCreate outcomeEvents
  split
  · split <;> simp
  · simp

theorem stateAfterCreate_UnpStream (E : Env) (s : State) (Target : List Byte) (Arc : Archive)
    (DestName : String) :
    (stateAfterCreate E s Target Arc DestName).UnpStream = s.UnpStream := by
  unfold stateAfterCreate
  split
  · split <;> rfl
  · rfl

theorem stateAfterCreate_ExitCode (E : Env) (s : State) (Target : List Byte) (Arc : Archive)
    (DestName : String) :
    (stateAfterCreate E s Target Arc DestName).ExitCode
      = if Event.SetErrorCode E.WARNING ∈ outcomeEvents E Target Arc DestName
        then max s.ExitCode E.WARNING else s.ExitCode := by
  unfold stateAfterCreate outcomeEvents
  split
  · split <;> simp
  · simp

/-- The stream position after a call on a link entry. -/
theorem ExtractLink_link_stream (E : Env) (hb : LinkBuild E) (s : State) (Arc : Archive)
    (DestName : String) (LinkCRC : Nat) (Create : Bool)
    (hl : E.IsLink Arc.NewLhd.FileAttr = true) :
    ∃ r, ExtractLink E s Arc DestName LinkCRC Create = some r
      ∧ r.st.UnpStream = s.UnpStream.drop (min Arc.NewLhd.PackSize (E.NM - 1)) := by
  refine ⟨_, ExtractLink_link_eq E hb s Arc DestName LinkCRC Create hl, ?_⟩
  cases Create
  · simp [stateAfterRead]
  · simp [stateAfterCreate_UnpStream, stateAfterRead]

/-- The calls made by `ExtractLink` on a link entry. -/
theorem ExtractLink_link_events (E : Env) (hb : LinkBuild E) (s : State) (Arc : Archive)
    (DestName : String) (LinkCRC : Nat) (Create : Bool)
    (hl : E.IsLink Arc.NewLhd.FileAttr = true) :
    ∃ r, ExtractLink E s Arc DestName LinkCRC Create = some r
      ∧ r.ret = 1
      ∧ r.LinkCRC = E.CRC 0xffffffff
          ((bufferAfterRead E s (min Arc.NewLhd.PackSize (E.NM - 1))).take
            (min Arc.NewLhd.PackSize (E.NM - 1)))
      ∧ newEvents s r = Event.UnpRead (min Arc.NewLhd.PackSize (E.NM - 1)) ::
          (if Create then
            [Event.CreatePath DestName none true, Event.symlink (linkTarget E s Arc) DestName]
              ++ outcomeEvents E (linkTarget E s Arc) Arc DestName
           else [])
      ∧ r.st.ExitCode = if Create = true ∧
            Event.SetErrorCode E.WARNING ∈ outcomeEvents E (linkTarget E s Arc) Arc DestName
          then max s.ExitCode E.WARNING else s.ExitCode := by
  refine ⟨_, ExtractLink_link_eq E hb s Arc DestName LinkCRC Create hl, rfl, rfl, ?_, ?_⟩
  · apply newEvents_append
    cases Create
    · simp [stateAfterRead]
    · simp [stateAfterCreate_events, stateAfterRead, linkTarget]
  · cases Create
    · simp [stateAfterRead]
    · simp [stateAfterCreate_ExitCode, stateAfterRead, linkTarget]

theorem outcomeEvents_isFsCall (E : Env) (Target : List Byte) (Arc : Archive)
    (DestName : String) :
    (outcomeEvents E Target Arc DestName).filter Event.isFsCall = [] := by
  unfold outcomeEvents
  split
  · split <;> simp [Event.isFsCall]
  · simp

theorem takeWhile_take_first_zero (l : List Byte) (k n : Nat) (hk : k < n)
    (hzero : l[k]? = some 0) (hfirst : ∀ j, j < k → l[j]? ≠ some 0) :
    (l.take n).takeWhile (fun b => b ≠ 0) = l.take k := by
  induction l generalizing k n with
  | nil => simp at hzero
  | cons a t ih =>
    cases n with
    | zero => omega
    | succ m =>
      cases k with
      | zero =>
        have ha : a = 0 := by simpa using hzero
        simp [ha]
      | succ i =>
        have ha : a ≠ 0 := by
          have := hfirst 0 (by omega)
          simpa using this
        have hrec := ih i m (by omega) (by simpa using hzero)
          (fun j hj => by
            have := hfirst (j + 1) (by omega)
            simpa using this)
        simp only [List.take_succ_cons, List.takeWhile_cons, ha, ne_eq, not_false_eq_true,
          decide_True, if_true]
        rw [← hrec]

theorem takeWhile_of_no_zero (l : List Byte) (hz : (0 : Byte) ∉ l) :
    l.takeWhile (fun b => b ≠ 0) = l := by
  induction l with
  | nil => rfl
  | cons a t ih =>
    have ha : a ≠ 0 := fun h => hz (by simp [h])
    have ht : (0 : Byte) ∉ t := fun h => hz (List.mem_cons_of_mem _ h)
    have h := ih ht
    simp only [List.takeWhile_cons, ha, ne_eq, not_false_eq_true, decide_True, if_true]
    exact congrArg (List.cons a) h

theorem linkTarget_of_stream (E : Env) (s : State) (Arc : Archive)
    (hs : min Arc.NewLhd.PackSize (E.NM - 1) ≤ s.UnpStream.length) :
    linkTarget E s Arc
      = (s.UnpStream.take (min Arc.NewLhd.PackSize (E.NM - 1))).takeWhile (fun b => b ≠ 0) := by
  unfold linkTarget
  rw [bufferAfterRead_take E s _ hs]

/-! ## The claims -/

/-- C1: in a link-supporting build, for every link entry and every declared
payload size, `ExtractLink` completes without a memory fault, its first and
only request to the data cursor asks for `n = min(PackSize, NM - 1)` bytes,
`n ≤ NM - 1`, the cursor delivers at most `n` bytes, and the index `DataSize`
of the terminator write satisfies `0 ≤ DataSize = n < NM`. -/
theorem ExtractLink_read_within_buffer (E : Env) (hb : LinkBuild E) (s : State) (Arc : Archive)
    (DestName : String) (LinkCRC : Nat) (Create : Bool)
    (hl : E.IsLink Arc.NewLhd.FileAttr = true) :
    ∃ r, ExtractLink E s Arc DestName LinkCRC Create = some r
      ∧ (newEvents s r).head? = some (Event.UnpRead (min Arc.NewLhd.PackSize (E.NM - 1)))
      ∧ (∀ c, Event.UnpRead c ∈ newEvents s r → c = min Arc.NewLhd.PackSize (E.NM - 1))
      ∧ min Arc.NewLhd.PackSize (E.NM - 1) ≤ E.NM - 1
      ∧ s.UnpStream.length - r.st.UnpStream.length ≤ min Arc.NewLhd.PackSize (E.NM - 1)
      ∧ DataSize E Arc = ((min Arc.NewLhd.PackSize (E.NM - 1) : Nat) : Int)
      ∧ 0 ≤ DataSize E Arc
      ∧ DataSize E Arc < ((List.range E.NM).map E.stack).length := by
  have hD := DataSize_eq E hb Arc
  refine ⟨_, ExtractLink_link_eq E hb s Arc DestName LinkCRC Create hl, ?_, ?_, ?_, ?_, hD, ?_, ?_⟩
  · cases Create
    · simp [newEvents, stateAfterRead]
    · simp only [newEvents, stateAfterCreate, stateAfterRead, if_true]
      split
      · split <;> simp [List.append_assoc]
      · simp [List.append_assoc]
  · intro c hc
    cases Create
    · simpa [newEvents, stateAfterRead] using hc
    · simp only [newEvents, stateAfterCreate, stateAfterRead, if_true] at hc
      split at hc
      · split at hc <;> simpa [List.append_assoc] using hc
      · simpa [List.append_assoc] using hc
  · omega
  · cases Create
    · simp [stateAfterRead]
      omega
    · simp only [stateAfterCreate, stateAfterRead, if_true]
      split
      · split <;> (simp; omega)
      · simp
        omega
  · rw [hD]
    omega
  · obtain ⟨_, _, h0, _⟩ := hb
    rw [hD]
    simp
    omega

/-- Witness for C1 -/
theorem ExtractLink_read_within_buffer_witness :
    LinkBuild (sampleEnv (fun _ _ => (0, 0)) (fun _ => 65))
    ∧ (sampleEnv (fun _ _ => (0, 0)) (fun _ => 65)).IsLink
        (sampleArc 4294967295).NewLhd.FileAttr = true
    ∧ ∃ r, ExtractLink (sampleEnv (fun _ _ => (0, 0)) (fun _ => 65)) sampleState
          (sampleArc 4294967295) "out/link" 7 true = some r
        ∧ (newEvents sampleState r).head? = some (Event.UnpRead 1023) := by
  refine ⟨by decide, by decide, ?_⟩
  obtain ⟨r, hr, hh, _⟩ :=
    ExtractLink_read_within_buffer (sampleEnv (fun _ _ => (0, 0)) (fun _ => 65)) (by decide)
      sampleState (sampleArc 4294967295) "out/link" 7 true (by decide)
  exact ⟨r, hr, hh.trans (by decide)⟩

/-- C2: in a link-supporting build, for every link entry whose stream holds at
least `n = min(PackSize, NM - 1)` bytes, whatever `Create` is and however
`symlink` behaves, `ExtractLink` sets `LinkCRC` to `CRC(0xffffffff, ·)` of
exactly the first `n` bytes of the stream; these are the first `PackSize` bytes
when `PackSize < NM` and the first `NM - 1` bytes otherwise. -/
theorem ExtractLink_checksum_of_payload (E : Env) (hb : LinkBuild E) (s : State)
    (Arc : Archive) (DestName : String) (LinkCRC : Nat) (Create : Bool)
    (sym : List Byte → String → Int × Nat)
    (hl : E.IsLink Arc.NewLhd.FileAttr = true)
    (hs : min Arc.NewLhd.PackSize (E.NM - 1) ≤ s.UnpStream.length) :
    (∃ r, ExtractLink { E with symlink := sym } s Arc DestName LinkCRC Create = some r
      ∧ r.LinkCRC = E.CRC 0xffffffff (s.UnpStream.take (min Arc.NewLhd.PackSize (E.NM - 1))))
    ∧ (Arc.NewLhd.PackSize < E.NM →
        s.UnpStream.take (min Arc.NewLhd.PackSize (E.NM - 1))
          = s.UnpStream.take Arc.NewLhd.PackSize)
    ∧ (E.NM ≤ Arc.NewLhd.PackSize →
        s.UnpStream.take (min Arc.NewLhd.PackSize (E.NM - 1))
          = s.UnpStream.take (E.NM - 1)) := by
  refine ⟨?_, ?_, ?_⟩
  · have hb2 : LinkBuild { E with symlink := sym } := hb
    refine ⟨_, ExtractLink_link_eq { E with symlink := sym } hb2 s Arc DestName LinkCRC Create hl, ?_⟩
    have h := bufferAfterRead_take { E with symlink := sym } s _ hs
    simp only [] at h ⊢
    rw [h]
  · intro h
    rw [Nat.min_eq_left (by omega)]
  · intro h
    rw [Nat.min_eq_right (by omega)]

/-- Witness for C2 -/
theorem ExtractLink_checksum_of_payload_witness :
    LinkBuild (sampleEnv (fun _ _ => (0, 0)) (fun _ => 65))
    ∧ (sampleEnv (fun _ _ => (0, 0)) (fun _ => 65)).IsLink (sampleArc 16).NewLhd.FileAttr = true
    ∧ min (sampleArc 16).NewLhd.PackSize ((sampleEnv (fun _ _ => (0, 0)) (fun _ => 65)).NM - 1)
        ≤ sampleState.UnpStream.length
    ∧ ∃ r, ExtractLink { sampleEnv (fun _ _ => (0, 0)) (fun _ => 65) with
                         symlink := fun _ _ => (-1, 13) } sampleState
          (sampleArc 16) "out/link" 7 true = some r
        ∧ r.LinkCRC = crc32 0xffffffff traversalPayload := by
  refine ⟨by decide, by decide, by decide, ?_⟩
  obtain ⟨⟨r, hr, hc⟩, _⟩ :=
    ExtractLink_checksum_of_payload (sampleEnv (fun _ _ => (0, 0)) (fun _ => 65)) (by decide)
      sampleState (sampleArc 16) "out/link" 7 true (fun _ _ => (-1, 13))
      (by decide) (by decide)
  exact ⟨r, hr, hc.trans rfl⟩

/-- C3: in a link-supporting build, for every link entry whose stream holds
the `n = min(PackSize, NM - 1)` payload bytes, whatever `Create` is and however
`symlink` behaves, `ExtractLink` advances the data cursor past exactly `n`
bytes: `PackSize` bytes when `PackSize < NM` and `NM - 1` bytes when
`PackSize ≥ NM`. -/
theorem ExtractLink_consumes_n (E : Env) (hb : LinkBuild E) (s : State)
    (Arc : Archive) (DestName : String) (LinkCRC : Nat) (Create : Bool)
    (sym : List Byte → String → Int × Nat)
    (hl : E.IsLink Arc.NewLhd.FileAttr = true)
    (hs : min Arc.NewLhd.PackSize (E.NM - 1) ≤ s.UnpStream.length) :
    ∃ r, ExtractLink { E with symlink := sym } s Arc DestName LinkCRC Create = some r
      ∧ r.st.UnpStream = s.UnpStream.drop (min Arc.NewLhd.PackSize (E.NM - 1))
      ∧ s.UnpStream.length - r.st.UnpStream.length = min Arc.NewLhd.PackSize (E.NM - 1)
      ∧ (Arc.NewLhd.PackSize < E.NM →
          s.UnpStream.length - r.st.UnpStream.length = Arc.NewLhd.PackSize)
      ∧ (E.NM ≤ Arc.NewLhd.PackSize →
          s.UnpStream.length - r.st.UnpStream.length = E.NM - 1) := by
  have hb2 : LinkBuild { E with symlink := sym } := hb
  obtain ⟨r, hr, hst⟩ :=
    ExtractLink_link_stream { E with symlink := sym } hb2 s Arc DestName LinkCRC Create hl
  simp only [] at hst
  have hlen : s.UnpStream.length - r.st.UnpStream.length
      = min Arc.NewLhd.PackSize (E.NM - 1) := by
    rw [hst, List.length_drop]
    omega
  refine ⟨r, hr, hst, hlen, ?_, ?_⟩
  · intro h
    rw [hlen]
    omega
  · intro h
    rw [hlen]
    omega

/-- Witness for C3 -/
theorem ExtractLink_consumes_n_witness :
    LinkBuild (sampleEnv (fun _ _ => (0, 0)) (fun _ => 65))
    ∧ (sampleEnv (fun _ _ => (0, 0)) (fun _ => 65)).IsLink (sampleArc 16).NewLhd.FileAttr = true
    ∧ min (sampleArc 16).NewLhd.PackSize ((sampleEnv (fun _ _ => (0, 0)) (fun _ => 65)).NM - 1)
        ≤ sampleState.UnpStream.length
    ∧ ∃ r, ExtractLink { sampleEnv (fun _ _ => (0, 0)) (fun _ => 65) with
                         symlink := fun _ _ => (-1, 17) } sampleState
          (sampleArc 16) "out/link" 7 false = some r
        ∧ r.st.UnpStream = [1, 2, 3] := by
  refine ⟨by decide, by decide, by decide, ?_⟩
  obtain ⟨r, hr, hst, _⟩ :=
    ExtractLink_consumes_n (sampleEnv (fun _ _ => (0, 0)) (fun _ => 65)) (by decide)
      sampleState (sampleArc 16) "out/link" 7 false (fun _ _ => (-1, 17))
      (by decide) (by decide)
  exact ⟨r, hr, hst.trans (by decide)⟩

/-- C8: for every header that `IsLink` does not classify as a symbolic link, in
every build and for either value of `Create`, `ExtractLink` returns 0 and leaves
the surroundings and `LinkCRC` as they were: no byte is consumed, no call is
made (no log line, no filesystem operation), and the exit code is unchanged. -/
theorem ExtractLink_not_a_link (E : Env) (s : State) (Arc : Archive) (DestName : String)
    (LinkCRC : Nat) (Create : Bool) (hl : E.IsLink Arc.NewLhd.FileAttr = false) :
    ExtractLink E s Arc DestName LinkCRC Create
        = some { ret := 0, LinkCRC := LinkCRC, st := s }
      ∧ newEvents s { ret := 0, LinkCRC := LinkCRC, st := s } = [] := by
  refine ⟨ExtractLink_skip_eq E s Arc DestName LinkCRC Create (by simp [hl]), ?_⟩
  simp [newEvents]

/-- Witness for C8 -/
theorem ExtractLink_not_a_link_witness :
    (sampleEnv (fun _ _ => (0, 0)) (fun _ => 65)).IsLink 0x81FF = false
    ∧ ExtractLink (sampleEnv (fun _ _ => (0, 0)) (fun _ => 65)) sampleState
          { FileName := "a.rar", NewLhd := { FileAttr := 0x81FF, PackSize := 16 } }
          "out/file" 7 true
        = some { ret := 0, LinkCRC := 7, st := sampleState } :=
  ⟨by decide,
   (ExtractLink_not_a_link (sampleEnv (fun _ _ => (0, 0)) (fun _ => 65)) sampleState
      { FileName := "a.rar", NewLhd := { FileAttr := 0x81FF, PackSize := 16 } }
      "out/file" 7 true (by decide)).1⟩

/-- C7: for every input (any build, any header, any stream), a call with
`Create = false` completes, makes no call other than the single read request
(so neither `CreatePath` nor `symlink` nor `Log` nor `SetErrorCode`), and leaves
the exit code unchanged.  On a link entry of a link-supporting build the
surroundings afterwards differ from those before only in the cursor, advanced
by `n = min(PackSize, NM - 1)`, and in the recorded read request, and `LinkCRC`
holds the checksum; otherwise nothing changes at all. -/
theorem ExtractLink_dry_run_frame (E : Env) (h0 : 0 < E.NM) (h1 : E.NM ≤ 2147483648)
    (s : State) (Arc : Archive) (DestName : String) (LinkCRC : Nat) :
    ∃ r, ExtractLink E s Arc DestName LinkCRC false = some r
      ∧ (∀ e ∈ newEvents s r, e = Event.UnpRead (min Arc.NewLhd.PackSize (E.NM - 1)))
      ∧ r.st.ExitCode = s.ExitCode
      ∧ ((E.SAVE_LINKS && E._UNIX && E.IsLink Arc.NewLhd.FileAttr) = true →
          r.st = { s with UnpStream := s.UnpStream.drop (min Arc.NewLhd.PackSize (E.NM - 1)),
                          events := s.events ++
                            [Event.UnpRead (min Arc.NewLhd.PackSize (E.NM - 1))] }
          ∧ r.LinkCRC = E.CRC 0xffffffff
              ((bufferAfterRead E s (min Arc.NewLhd.PackSize (E.NM - 1))).take
                (min Arc.NewLhd.PackSize (E.NM - 1))))
      ∧ ((E.SAVE_LINKS && E._UNIX && E.IsLink Arc.NewLhd.FileAttr) = false →
          r.st = s ∧ r.LinkCRC = LinkCRC) := by
  by_cases h : (E.SAVE_LINKS && E._UNIX && E.IsLink Arc.NewLhd.FileAttr) = true
  · have h' := h
    simp only [Bool.and_eq_true] at h'
    have hb : LinkBuild E := ⟨h'.1.1, h'.1.2, h0, h1⟩
    refine ⟨_, ExtractLink_link_eq E hb s Arc DestName LinkCRC false h'.2, ?_, ?_, ?_, ?_⟩
    · simp [newEvents, stateAfterRead]
    · simp [stateAfterRead]
    · intro _
      simp [stateAfterRead]
    · intro hf
      rw [h] at hf
      cases hf
  · have hf : (E.SAVE_LINKS && E._UNIX && E.IsLink Arc.NewLhd.FileAttr) = false := by
      simpa using h
    refine ⟨_, ExtractLink_skip_eq E s Arc DestName LinkCRC false hf, ?_, rfl, ?_, ?_⟩
    · simp [newEvents]
    · intro ht
      exact absurd ht h
    · intro _
      exact ⟨rfl, rfl⟩

/-- Witness for C7 -/
theorem ExtractLink_dry_run_frame_witness :
    0 < (sampleEnv (fun _ _ => (-1, 13)) (fun _ => 65)).NM
    ∧ (sampleEnv (fun _ _ => (-1, 13)) (fun _ => 65)).NM ≤ 2147483648
    ∧ ∃ r, ExtractLink (sampleEnv (fun _ _ => (-1, 13)) (fun _ => 65)) sampleState
          (sampleArc 16) "out/link" 7 false = some r
        ∧ r.st = { UnpStream := [1, 2, 3], ExitCode := 0, events := [Event.UnpRead 16] } := by
  refine ⟨by decide, by decide, ?_⟩
  obtain ⟨r, hr, _, _, hlink, _⟩ :=
    ExtractLink_dry_run_frame (sampleEnv (fun _ _ => (-1, 13)) (fun _ => 65))
      (by decide) (by decide) sampleState (sampleArc 16) "out/link" 7
  exact ⟨r, hr, (hlink (by decide)).1.trans (by decide)⟩

/-- C9: in a link-supporting build, for every link entry with `Create = true`
whose `n = min(PackSize, NM - 1)` payload bytes are all in the stream and
contain no zero byte, `ExtractLink`
first reads, then calls `CreatePath(DestName, NULL, true)`, then calls `symlink`
with destination `DestName` and target exactly those `n` bytes, unaltered; these
are its only two filesystem calls, and `LinkCRC` is the checksum of the same
`n` bytes. -/
theorem ExtractLink_symlink_verbatim (E : Env) (hb : LinkBuild E) (s : State) (Arc : Archive)
    (DestName : String) (LinkCRC : Nat)
    (hl : E.IsLink Arc.NewLhd.FileAttr = true)
    (hs : min Arc.NewLhd.PackSize (E.NM - 1) ≤ s.UnpStream.length)
    (hz : (0 : Byte) ∉ s.UnpStream.take (min Arc.NewLhd.PackSize (E.NM - 1))) :
    ∃ r, ExtractLink E s Arc DestName LinkCRC true = some r
      ∧ (newEvents s r).take 3
          = [Event.UnpRead (min Arc.NewLhd.PackSize (E.NM - 1)),
             Event.CreatePath DestName none true,
             Event.symlink (s.UnpStream.take (min Arc.NewLhd.PackSize (E.NM - 1))) DestName]
      ∧ (newEvents s r).filter Event.isFsCall
          = [Event.CreatePath DestName none true,
             Event.symlink (s.UnpStream.take (min Arc.NewLhd.PackSize (E.NM - 1))) DestName]
      ∧ r.LinkCRC = E.CRC 0xffffffff
          (s.UnpStream.take (min Arc.NewLhd.PackSize (E.NM - 1))) := by
  obtain ⟨r, hr, _, hcrc, hev, _⟩ := ExtractLink_link_events E hb s Arc DestName LinkCRC true hl
  have ht : linkTarget E s Arc = s.UnpStream.take (min Arc.NewLhd.PackSize (E.NM - 1)) := by
    rw [linkTarget_of_stream E s Arc hs, takeWhile_of_no_zero _ hz]
  rw [ht] at hev
  refine ⟨r, hr, ?_, ?_, ?_⟩
  · rw [hev]
    simp
  · rw [hev]
    simp [List.filter_cons, Event.isFsCall, outcomeEvents_isFsCall]
  · rw [hcrc, bufferAfterRead_take E s _ hs]

/-- Witness for C9 -/
theorem ExtractLink_symlink_verbatim_witness :
    LinkBuild (sampleEnv (fun _ _ => (0, 0)) (fun _ => 65))
    ∧ (sampleEnv (fun _ _ => (0, 0)) (fun _ => 65)).IsLink (sampleArc 16).NewLhd.FileAttr = true
    ∧ min (sampleArc 16).NewLhd.PackSize ((sampleEnv (fun _ _ => (0, 0)) (fun _ => 65)).NM - 1)
        ≤ sampleState.UnpStream.length
    ∧ (0 : Byte) ∉ sampleState.UnpStream.take
        (min (sampleArc 16).NewLhd.PackSize ((sampleEnv (fun _ _ => (0, 0)) (fun _ => 65)).NM - 1))
    ∧ ∃ r, ExtractLink (sampleEnv (fun _ _ => (0, 0)) (fun _ => 65)) sampleState
          (sampleArc 16) "out/link" 7 true = some r
        ∧ (newEvents sampleState r).filter Event.isFsCall
            = [Event.CreatePath "out/link" none true, Event.symlink traversalPayload "out/link"]
        ∧ r.LinkCRC = crc32 0xffffffff traversalPayload := by
  refine ⟨by decide, by decide, by decide, by decide, ?_⟩
  obtain ⟨r, hr, _, hfs, hcrc⟩ :=
    ExtractLink_symlink_verbatim (sampleEnv (fun _ _ => (0, 0)) (fun _ => 65)) (by decide)
      sampleState (sampleArc 16) "out/link" 7 (by decide) (by decide) (by decide)
  exact ⟨r, hr, hfs.trans (by decide), hcrc.trans rfl⟩

/-- C10: in a link-supporting build, for every link entry with `Create = true`
whose `n = min(PackSize, NM - 1)` payload bytes are all in the stream and have
their first zero byte at index
`k < n`, the target handed to `symlink` is only the first `k` bytes, while
`LinkCRC` is the checksum of all `n` bytes; the link target and the checksummed
bytes are then different byte strings. -/
theorem ExtractLink_target_stops_at_zero (E : Env) (hb : LinkBuild E) (s : State)
    (Arc : Archive) (DestName : String) (LinkCRC : Nat) (k : Nat)
    (hl : E.IsLink Arc.NewLhd.FileAttr = true)
    (hs : min Arc.NewLhd.PackSize (E.NM - 1) ≤ s.UnpStream.length)
    (hk : k < min Arc.NewLhd.PackSize (E.NM - 1))
    (hzero : s.UnpStream[k]? = some 0)
    (hfirst : ∀ j, j < k → s.UnpStream[j]? ≠ some 0) :
    ∃ r, ExtractLink E s Arc DestName LinkCRC true = some r
      ∧ (newEvents s r).filter Event.isFsCall
          = [Event.CreatePath DestName none true, Event.symlink (s.UnpStream.take k) DestName]
      ∧ r.LinkCRC = E.CRC 0xffffffff
          (s.UnpStream.take (min Arc.NewLhd.PackSize (E.NM - 1)))
      ∧ s.UnpStream.take k ≠ s.UnpStream.take (min Arc.NewLhd.PackSize (E.NM - 1)) := by
  obtain ⟨r, hr, _, hcrc, hev, _⟩ := ExtractLink_link_events E hb s Arc DestName LinkCRC true hl
  have ht : linkTarget E s Arc = s.UnpStream.take k := by
    rw [linkTarget_of_stream E s Arc hs, takeWhile_take_first_zero _ k _ hk hzero hfirst]
  rw [ht] at hev
  refine ⟨r, hr, ?_, ?_, ?_⟩
  · rw [hev]
    simp [List.filter_cons, Event.isFsCall, outcomeEvents_isFsCall]
  · rw [hcrc, bufferAfterRead_take E s _ hs]
  · intro h
    have hlen := congrArg List.length h
    simp only [List.length_take] at hlen
    omega

/-- Witness for C10 -/
theorem ExtractLink_target_stops_at_zero_witness :
    LinkBuild (sampleEnv (fun _ _ => (0, 0)) (fun _ => 65))
    ∧ (sampleEnv (fun _ _ => (0, 0)) (fun _ => 65)).IsLink (sampleArc 5).NewLhd.FileAttr = true
    ∧ ∃ r, ExtractLink (sampleEnv (fun _ _ => (0, 0)) (fun _ => 65))
          { UnpStream := [47, 97, 0, 47, 98], ExitCode := 0, events := [] }
          (sampleArc 5) "out/link" 7 true = some r
        ∧ (newEvents { UnpStream := [47, 97, 0, 47, 98], ExitCode := 0, events := [] } r).filter
              Event.isFsCall
            = [Event.CreatePath "out/link" none true, Event.symlink [47, 97] "out/link"]
        ∧ r.LinkCRC = crc32 0xffffffff [47, 97, 0, 47, 98] := by
  refine ⟨by decide, by decide, ?_⟩
  obtain ⟨r, hr, hfs, hcrc, _⟩ :=
    ExtractLink_target_stops_at_zero (sampleEnv (fun _ _ => (0, 0)) (fun _ => 65)) (by decide)
      { UnpStream := [47, 97, 0, 47, 98], ExitCode := 0, events := [] }
      (sampleArc 5) "out/link" 7 2 (by decide) (by decide) (by decide) (by decide) (by decide)
  exact ⟨r, hr, hfs.trans (by decide), hcrc.trans rfl⟩

/-- C6: in a link-supporting build, `ExtractLink` calls `SetErrorCode(WARNING)`
if and only if the entry is a link, `Create` is true and `symlink` fails with an
`errno` other than `EEXIST`; it never calls `SetErrorCode` with another code.
When `symlink` fails with `EEXIST`, exactly one message is logged, naming the
archive and the destination, no `SetErrorCode` call is made and the exit code is
unchanged.  When it fails otherwise, the call still completes, returning 1 with
`LinkCRC` set to the checksum, and the exit code is raised to at least `WARNING`. -/
theorem ExtractLink_raises_iff (E : Env) (hb : LinkBuild E) (s : State) (Arc : Archive)
    (DestName : String) (LinkCRC : Nat) (Create : Bool) :
    ∃ r, ExtractLink E s Arc DestName LinkCRC Create = some r
      ∧ (Event.SetErrorCode E.WARNING ∈ newEvents s r ↔
          (E.IsLink Arc.NewLhd.FileAttr = true ∧ Create = true
            ∧ (E.symlink (linkTarget E s Arc) DestName).1 = -1
            ∧ (E.symlink (linkTarget E s Arc) DestName).2 ≠ E.EEXIST))
      ∧ (∀ c, Event.SetErrorCode c ∈ newEvents s r → c = E.WARNING)
      ∧ (E.IsLink Arc.NewLhd.FileAttr = true → Create = true →
          (E.symlink (linkTarget E s Arc) DestName).1 = -1 →
          (E.symlink (linkTarget E s Arc) DestName).2 = E.EEXIST →
            (newEvents s r).filter Event.isLog
                = [Event.Log Arc.FileName MsgId.MSymLinkExists DestName]
              ∧ (newEvents s r).filter Event.isSetErrorCode = []
              ∧ r.st.ExitCode = s.ExitCode)
      ∧ (E.IsLink Arc.NewLhd.FileAttr = true → Create = true →
          (E.symlink (linkTarget E s Arc) DestName).1 = -1 →
          (E.symlink (linkTarget E s Arc) DestName).2 ≠ E.EEXIST →
            r.ret = 1
              ∧ r.LinkCRC = E.CRC 0xffffffff
                  ((bufferAfterRead E s (min Arc.NewLhd.PackSize (E.NM - 1))).take
                    (min Arc.NewLhd.PackSize (E.NM - 1)))
              ∧ r.st.ExitCode = max s.ExitCode E.WARNING) := by
  cases hl : E.IsLink Arc.NewLhd.FileAttr
  · refine ⟨_, ExtractLink_skip_eq E s Arc DestName LinkCRC Create (by simp [hl]), ?_⟩
    simp [newEvents]
  · obtain ⟨r, hr, hret, hcrc, hev, hex⟩ :=
      ExtractLink_link_events E hb s Arc DestName LinkCRC Create hl
    refine ⟨r, hr, ?_⟩
    rw [hev, hex, hret, hcrc]
    cases Create
    · simp
    · by_cases h1 : (E.symlink (linkTarget E s Arc) DestName).1 = -1
      · by_cases h2 : (E.symlink (linkTarget E s Arc) DestName).2 = E.EEXIST
        · simp [outcomeEvents, h1, h2, Event.isLog, Event.isSetErrorCode, List.filter_cons]
        · simp [outcomeEvents, h1, h2, Event.isLog, Event.isSetErrorCode, List.filter_cons]
      · simp [outcomeEvents, h1, Event.isLog, Event.isSetErrorCode, List.filter_cons]

/-- Witness for C6 -/
theorem ExtractLink_raises_iff_witness :
    LinkBuild (sampleEnv (fun _ _ => (-1, 17)) (fun _ => 65))
    ∧ ∃ r, ExtractLink (sampleEnv (fun _ _ => (-1, 17)) (fun _ => 65)) sampleState
          (sampleArc 16) "out/link" 7 true = some r
        ∧ (newEvents sampleState r).filter Event.isLog
            = [Event.Log "a.rar" MsgId.MSymLinkExists "out/link"]
        ∧ r.st.ExitCode = 0 := by
  refine ⟨by decide, ?_⟩
  obtain ⟨r, hr, _, _, hexist, _⟩ :=
    ExtractLink_raises_iff (sampleEnv (fun _ _ => (-1, 17)) (fun _ => 65)) (by decide)
      sampleState (sampleArc 16) "out/link" 7 true
  have h := hexist (by decide) rfl rfl rfl
  exact ⟨r, hr, h.1, h.2.2⟩

/-- C5 as the code has it: in a link-supporting build, for every link entry
extracted with `Create = true`, `ExtractLink` returns 1 whether `symlink` succeeds, fails with `EEXIST` or fails
otherwise, a value distinct from the 0 it returns for an entry that is not a
link.  What happened is visible only in the calls that follow `symlink`: none on
success, one `Log` with `MSymLinkExists` on `EEXIST`, and one `Log` with
`MErrCreateLnk` followed by `SetErrorCode(WARNING)` on any other failure. -/
theorem ExtractLink_create_returns_one (E : Env) (hb : LinkBuild E) (s : State)
    (Arc : Archive) (DestName : String) (LinkCRC : Nat)
    (hl : E.IsLink Arc.NewLhd.FileAttr = true) :
    ∃ r, ExtractLink E s Arc DestName LinkCRC true = some r
      ∧ r.ret = 1
      ∧ ((E.symlink (linkTarget E s Arc) DestName).1 ≠ -1 →
          newEvents s r
            = [Event.UnpRead (min Arc.NewLhd.PackSize (E.NM - 1)),
               Event.CreatePath DestName none true,
               Event.symlink (linkTarget E s Arc) DestName])
      ∧ ((E.symlink (linkTarget E s Arc) DestName).1 = -1 →
          (E.symlink (linkTarget E s Arc) DestName).2 = E.EEXIST →
          newEvents s r
            = [Event.UnpRead (min Arc.NewLhd.PackSize (E.NM - 1)),
               Event.CreatePath DestName none true,
               Event.symlink (linkTarget E s Arc) DestName,
               Event.Log Arc.FileName MsgId.MSymLinkExists DestName])
      ∧ ((E.symlink (linkTarget E s Arc) DestName).1 = -1 →
          (E.symlink (linkTarget E s Arc) DestName).2 ≠ E.EEXIST →
          newEvents s r
            = [Event.UnpRead (min Arc.NewLhd.PackSize (E.NM - 1)),
               Event.CreatePath DestName none true,
               Event.symlink (linkTarget E s Arc) DestName,
               Event.Log Arc.FileName MsgId.MErrCreateLnk DestName,
               Event.SetErrorCode E.WARNING])
      ∧ (∀ Arc2 : Archive, E.IsLink Arc2.NewLhd.FileAttr = false →
          (ExtractLink E s Arc2 DestName LinkCRC true).map Result.ret = some 0) := by
  obtain ⟨r, hr, hret, _, hev, _⟩ := ExtractLink_link_events E hb s Arc DestName LinkCRC true hl
  refine ⟨r, hr, hret, ?_, ?_, ?_, ?_⟩
  · intro h1
    rw [hev]
    simp [outcomeEvents, h1]
  · intro h1 h2
    rw [hev]
    simp [outcomeEvents, h1, h2]
  · intro h1 h2
    rw [hev]
    simp [outcomeEvents, h1, h2]
  · intro Arc2 h2
    rw [ExtractLink_skip_eq E s Arc2 DestName LinkCRC true (by simp [h2])]
    rfl

/-- Witness for the amended C5 -/
theorem ExtractLink_create_returns_one_witness :
    LinkBuild (sampleEnv (fun _ _ => (-1, 13)) (fun _ => 65))
    ∧ (sampleEnv (fun _ _ => (-1, 13)) (fun _ => 65)).IsLink (sampleArc 16).NewLhd.FileAttr = true
    ∧ ∃ r, ExtractLink (sampleEnv (fun _ _ => (-1, 13)) (fun _ => 65)) sampleState
          (sampleArc 16) "out/link" 7 true = some r
        ∧ r.ret = 1 := by
  refine ⟨by decide, by decide, ?_⟩
  obtain ⟨r, hr, hret, _⟩ :=
    ExtractLink_create_returns_one (sampleEnv (fun _ _ => (-1, 13)) (fun _ => 65)) (by decide)
      sampleState (sampleArc 16) "out/link" 7 (by decide)
  exact ⟨r, hr, hret⟩

/-- Counterexample to C5 as stated: on the same link entry with `Create = true`,
a successful `symlink`, one failing with `EEXIST` (17) and one failing with
`EACCES` (13) all make `ExtractLink` hand back the same return value 1 and the
same `LinkCRC`, so the value returned does not tell the three outcomes apart. -/
theorem ExtractLink_outcomes_share_return_value :
    (ExtractLink (sampleEnv (fun _ _ => (0, 0)) (fun _ => 65)) sampleState
        (sampleArc 16) "out/link" 7 true).map (fun r => (r.ret, r.LinkCRC))
      = some (1, crc32 0xffffffff traversalPayload)
    ∧ (ExtractLink (sampleEnv (fun _ _ => (-1, 17)) (fun _ => 65)) sampleState
        (sampleArc 16) "out/link" 7 true).map (fun r => (r.ret, r.LinkCRC))
      = some (1, crc32 0xffffffff traversalPayload)
    ∧ (ExtractLink (sampleEnv (fun _ _ => (-1, 13)) (fun _ => 65)) sampleState
        (sampleArc 16) "out/link" 7 true).map (fun r => (r.ret, r.LinkCRC))
      = some (1, crc32 0xffffffff traversalPayload) := by
  refine ⟨?_, ?_, ?_⟩
  · rw [ExtractLink_link_eq _ (by decide) _ _ _ _ _ (by decide)]
    rfl
  · rw [ExtractLink_link_eq _ (by decide) _ _ _ _ _ (by decide)]
    rfl
  · rw [ExtractLink_link_eq _ (by decide) _ _ _ _ _ (by decide)]
    rfl

/-- C4 at a truncated stream: the header declares 4 payload bytes, the cursor
delivers only the 2 bytes `[97, 98]`, and `ExtractLink` reports the checksum of
4 cells of `FileName`, the 2 delivered bytes followed by 2 stale stack cells.
The reported value is not the checksum of the delivered bytes, and it changes
with the stack contents. -/
theorem ExtractLink_short_read_checksums_stack :
    (UnpRead shortState ((List.range 1024).map (fun _ => (65 : Byte))) 4).map
        (fun r => r.bytesRead) = some 2
    ∧ (ExtractLink (sampleEnv (fun _ _ => (0, 0)) (fun _ => 65)) shortState
        (sampleArc 4) "out/link" 7 false).map Result.LinkCRC
      = some (crc32 0xffffffff [97, 98, 65, 65])
    ∧ (ExtractLink (sampleEnv (fun _ _ => (0, 0)) (fun _ => 66)) shortState
        (sampleArc 4) "out/link" 7 false).map Result.LinkCRC
      = some (crc32 0xffffffff [97, 98, 66, 66])
    ∧ crc32 0xffffffff [97, 98, 65, 65] = 4274757769
    ∧ crc32 0xffffffff [97, 98, 66, 66] = 1290773232
    ∧ crc32 0xffffffff [97, 98] = 1635563410 := by
  refine ⟨by decide, ?_, ?_, by decide, by decide, by decide⟩
  · rw [ExtractLink_link_eq _ (by decide) _ _ _ _ _ (by decide)]
    decide
  · rw [ExtractLink_link_eq _ (by decide) _ _ _ _ _ (by decide)]
    decide

end Unrar
